import Mathlib

/-!
Verification of `src/handlers/pricing-label.ts` from the assistive-pricing
repository.

The handler is embedded shallowly: the sequence of label-store mutation
calls an invocation would issue is computed as a pure value, and the effect
of those calls on the issue's label set is modelled by `applyCalls`.
Collaborators that live outside the provided sources
(`sortLabelsByValue`, `setPrice`, `clearAllPriceLabelsOnIssue`,
`isParentIssue`, `handleParentIssue`, the permission check) are modelled
from the spec, each marked as such in its doc comment.
-/

namespace AssistivePricing

/-- A GitHub label; identity is its name (spec §3). -/
structure Label where
  name : String
deriving DecidableEq, Repr

/-- The actor recorded on a historical issue event; `type` is `"User"`,
`"Bot"`, ... (spec §3 LabeledEvent). -/
structure Actor where
  type : String
deriving DecidableEq, Repr

/-- One entry of the issue's event log, as consumed by
`getAllLabeledEvents` / `handleExistingPriceLabel`: an `event` kind tag, an
optional `label` field (the TS code guards with `"label" in event`) and an
optional `actor`. -/
structure IssueEvent where
  event : String
  label : Option Label
  actor : Option Actor
deriving DecidableEq, Repr

/-- `config.labels` : the recognized time and priority label names
(spec §6 Configuration). -/
structure ConfigLabels where
  time : List String
  priority : List String
deriving DecidableEq, Repr

/-- `config.publicAccessControl` (spec §6 Configuration). -/
structure PublicAccessControl where
  setLabel : Bool
deriving DecidableEq, Repr

/-- `AssistivePricingSettings` from `src/types/plugin-input.ts` (only the
fields `pricing-label.ts` reads). -/
structure AssistivePricingSettings where
  labels : ConfigLabels
  publicAccessControl : PublicAccessControl
deriving DecidableEq, Repr

/-- One mutation call the handler can issue against the label store
(spec §6 Label Store). -/
inductive MutationCall where
  | removeLabel : String → MutationCall
  | clearAllPriceLabelsOnIssue : MutationCall
  | createLabel : String → MutationCall
  | addLabelToIssue : String → MutationCall
deriving DecidableEq, Repr

/-- `leadsWith p l` : the character list `p` is an initial segment of `l`. -/
def leadsWith : List Char → List Char → Bool
  | [], _ => true
  | _ :: _, [] => false
  | a :: as, b :: bs => a == b && leadsWith as bs

/-- `occursIn p l` : the character list `p` occurs contiguously in `l`. -/
def occursIn (p : List Char) : List Char → Bool
  | [] => p.isEmpty
  | c :: rest => leadsWith p (c :: rest) || occursIn p rest

/-- JavaScript's `s.includes(pat)` : `pat` is a contiguous substring of `s`. -/
def strIncludes (s pat : String) : Bool :=
  occursIn pat.data s.data

/-- Modelled from the spec: `sortLabelsByValue` is imported from
`src/handlers/handle-parent-issue.ts`, which is not among the provided
sources.  Spec §4.1: labels are ordered ascending by the magnitude embedded
in the label name, the sort is stable, and ties are broken by original list
order (first occurrence wins).  The magnitude is abstracted as a value
function `val` on label names; stable ascending sorting is insertion sort. -/
def sortLabelsByValue (val : String → Nat) (labels : List Label) : List Label :=
  labels.insertionSort (fun a b => val a.name ≤ val b.name)

/-- Modelled from the spec: `clearAllPriceLabelsOnIssue` (from
`src/shared/label.ts`, not among the provided sources) removes every price
label from the issue; price labels are identified by the `"Price: "` name
convention (spec §3). -/
def isPriceLabel (l : Label) : Bool :=
  strIncludes l.name "Price: "

/-- The event payload fields `pricing-label.ts` reads. -/
structure EventPayload where
  issueLabels : Option (List Label)
  issueBody : Option String
  triggerLabel : Option Label
deriving Repr

/-- The invocation context: the payload, the configuration, and the
responses of the external collaborators (permission check, repository label
list, issue event log, price formula, label magnitudes, parent detection).
All external state is a frozen input, matching spec §5: state is re-read
fresh from the external store each invocation. -/
structure Context where
  isIssueLabelEvent : Bool
  payload : EventPayload
  config : AssistivePricingSettings
  hasPermission : Bool
  repoLabels : List Label
  issueEvents : List IssueEvent
  setPriceVal : Label → Label → Option Nat
  labelValue : String → Nat
  isParentIssue : String → Bool
  parentIssueCalls : List MutationCall

/-- Modelled from the spec: `setPrice` is imported from
`src/shared/pricing.ts`, which is not among the provided sources.  Spec
§4.2: a deterministic pure function of the time and priority labels that
returns null when either input cannot be resolved to a magnitude, and
otherwise a price value rendered as a label name `"Price: <value>"`
(`"Price: 1 USD"` in the spec's §8 scenarios).  The numeric outcome is
abstracted as `ctx.setPriceVal`. -/
def setPrice (ctx : Context) (timeLabel priorityLabel : Label) : Option String :=
  (ctx.setPriceVal timeLabel priorityLabel).map
    (fun v => "Price: " ++ toString v ++ " USD")

/-- The recognized-label buckets returned by `getRecognizedLabels`. -/
structure RecognizedLabels where
  time : List Label
  priority : List Label
deriving DecidableEq, Repr

/-- The inner predicate of `getRecognizedLabels`; the TS
`typeof label === "string" || typeof label === "object"` guard is a
tautology for `Label` values and is dropped. -/
def isRecognizedLabel (label : Label) (configLabels : List String) : Bool :=
  configLabels.any (fun configLabel => configLabel == label.name)

/-- `getRecognizedLabels` (pricing-label.ts:93-103): filter the issue's
labels into the configured time and priority buckets by name equality. -/
def getRecognizedLabels (labels : List Label) (settings : AssistivePricingSettings) :
    RecognizedLabels :=
  { time := labels.filter (fun label => isRecognizedLabel label settings.labels.time)
    priority := labels.filter (fun label => isRecognizedLabel label settings.labels.priority) }

/-- The result of `getMinLabels`; `.shift()` on an empty array is
`undefined`, hence the options. -/
structure MinLabels where
  time : Option Label
  priority : Option Label
deriving DecidableEq, Repr

/-- `getMinLabels` (pricing-label.ts:105-110): sort each bucket by value
and take the first (smallest) element, if any. -/
def getMinLabels (val : String → Nat) (recognizedLabels : RecognizedLabels) : MinLabels :=
  { time := (sortLabelsByValue val recognizedLabels.time).head?
    priority := (sortLabelsByValue val recognizedLabels.priority).head? }

/-- `getAllLabeledEvents` (pricing-label.ts:160-164): the issue's event log
filtered to `"labeled"` events.  A fetch failure yields `[]` in the source
(caught at pricing-label.ts:179-182), which is one possible value of
`ctx.issueEvents`. -/
def getAllLabeledEvents (ctx : Context) : List IssueEvent :=
  ctx.issueEvents.filter (fun e => e.event == "labeled")

/-- The labeled events whose label name contains `"Price"`
(pricing-label.ts:131). -/
def priceLabeledEvents (ctx : Context) : List IssueEvent :=
  (getAllLabeledEvents ctx).filter (fun e =>
    match e.label with
    | some l => strIncludes l.name "Price"
    | none => false)

/-- `event.actor?.type == "User"` (pricing-label.ts:134). -/
def isUserEvent (e : IssueEvent) : Bool :=
  match e.actor with
  | some a => a.type == "User"
  | none => false

/-- `addPriceLabelToIssue` (pricing-label.ts:141-144): clear all price
labels on the issue, then add the target. -/
def addPriceLabelToIssue (targetPriceLabel : String) : List MutationCall :=
  [MutationCall.clearAllPriceLabelsOnIssue, MutationCall.addLabelToIssue targetPriceLabel]

/-- `handleExistingPriceLabel` (pricing-label.ts:126-139): look at the
price-labeled event history; if it is empty (or the whole labeled history
is empty) log an error and stop; if the most recent price-labeled event's
actor is a `"User"`, skip; otherwise replace via `addPriceLabelToIssue`. -/
def handleExistingPriceLabel (ctx : Context) (targetPriceLabel : String) : List MutationCall :=
  match (priceLabeledEvents ctx).getLast? with
  | none => []
  | some lastEvent =>
    if isUserEvent lastEvent then []
    else addPriceLabelToIssue targetPriceLabel

/-- `handleTargetPriceLabel` (pricing-label.ts:112-124): if some issue
label name contains `"Price"` and contains the target, treat the target as
already present; otherwise create the label repo-wide when no repository
label name contains the target, then clear and add. -/
def handleTargetPriceLabel (ctx : Context) (targetPriceLabel : String)
    (labelNames : List String) : List MutationCall :=
  if labelNames.any (fun name =>
      strIncludes name "Price" && strIncludes name targetPriceLabel) then
    handleExistingPriceLabel ctx targetPriceLabel
  else
    (if ((ctx.repoLabels.filter (fun i => strIncludes i.name targetPriceLabel)).length == 0) then
      [MutationCall.createLabel targetPriceLabel]
    else []) ++ addPriceLabelToIssue targetPriceLabel

/-- `setPriceLabel` (pricing-label.ts:64-91): recognize the buckets; if
either is empty, clear all price labels and stop (normal outcome); pick the
minimum labels; if either is undefined, log and stop; compute the target
price; if null, clear all price labels, otherwise reconcile via
`handleTargetPriceLabel`. -/
def setPriceLabel (ctx : Context) (issueLabels : List Label) : List MutationCall :=
  let labelNames := issueLabels.map (fun i => i.name)
  let recognizedLabels := getRecognizedLabels issueLabels ctx.config
  if recognizedLabels.time.length == 0 || recognizedLabels.priority.length == 0 then
    [MutationCall.clearAllPriceLabelsOnIssue]
  else
    let minLabels := getMinLabels ctx.labelValue recognizedLabels
    match minLabels.time, minLabels.priority with
    | some timeLabel, some priorityLabel =>
      match setPrice ctx timeLabel priorityLabel with
      | some targetPriceLabel => handleTargetPriceLabel ctx targetPriceLabel labelNames
      | none => [MutationCall.clearAllPriceLabelsOnIssue]
    | _, _ => []

/-- `payload.issue.body && isParentIssue(payload.issue.body)`
(pricing-label.ts:23).  `isParentIssue` itself lives in
`handle-parent-issue.ts` (not among the provided sources) and is abstracted
as `ctx.isParentIssue`, per spec §4.5: a marker pattern in the body. -/
def isParentIssueGate (ctx : Context) : Bool :=
  match ctx.payload.issueBody with
  | some body => ctx.isParentIssue body
  | none => false

/-- `payload.label?.name.includes("Price: ")` (pricing-label.ts:37). -/
def triggerIsPrice (ctx : Context) : Bool :=
  match ctx.payload.triggerLabel with
  | some l => strIncludes l.name "Price: "
  | none => false

/-- `onLabelChangeSetPricing` (pricing-label.ts:11-62).  The returned value
is the list of mutation calls issued on the success path, or the thrown
error message.  In the direct-price-trigger branch the source keeps the
smallest-valued price label (`.shift()`), guards on the truthiness of its
name (empty string is falsy in JS), and removes the rest one by one. -/
def onLabelChangeSetPricing (ctx : Context) : Except String (List MutationCall) :=
  if !ctx.isIssueLabelEvent then Except.ok []
  else
    match ctx.payload.issueLabels with
    | none => Except.error "No labels to calculate price"
    | some labels =>
      if isParentIssueGate ctx then Except.ok ctx.parentIssueCalls
      else if !ctx.hasPermission then
        if ctx.config.publicAccessControl.setLabel == false then
          Except.error "No public access control to set labels"
        else
          Except.error "No permission to set labels"
      else if triggerIsPrice ctx then
        let priceLabels := labels.filter (fun label => strIncludes label.name "Price: ")
        match sortLabelsByValue ctx.labelValue priceLabels with
        | [] => Except.ok []
        | smallestPriceLabel :: rest =>
          if smallestPriceLabel.name.isEmpty then Except.ok []
          else Except.ok (rest.map (fun label => MutationCall.removeLabel label.name))
      else
        Except.ok (setPriceLabel ctx labels)

/-- The effect of one mutation call on the issue's label set.  `removeLabel`
removes the named label; `clearAllPriceLabelsOnIssue` removes every price
label (modelled from the spec, see `isPriceLabel`); `createLabel` is
repo-wide and does not touch the issue; `addLabelToIssue` adds the named
label if not already present (GitHub labels form a set). -/
def applyCall (labels : List Label) : MutationCall → List Label
  | MutationCall.removeLabel n => labels.filter (fun l => l.name != n)
  | MutationCall.clearAllPriceLabelsOnIssue => labels.filter (fun l => !isPriceLabel l)
  | MutationCall.createLabel _ => labels
  | MutationCall.addLabelToIssue n =>
    if labels.any (fun l => l.name == n) then labels else labels ++ [⟨n⟩]

/-- The issue's label set after a sequence of mutation calls. -/
def applyCalls (labels : List Label) (calls : List MutationCall) : List Label :=
  calls.foldl applyCall labels

/-- How many price labels an issue carries. -/
def countPriceLabels (labels : List Label) : Nat :=
  (labels.filter isPriceLabel).length

/-- The dedup removal loop (pricing-label.ts:48-55) with an explicit
failure oracle: each `await octokit.issues.removeLabel` either resolves or
rejects; the loop body has no try/catch, so a rejection propagates out of
the enclosing async function.  Returns the names whose removal was
attempted, in order, and whether the loop aborted with a thrown error. -/
def dedupRemovalLoop (removeFails : String → Bool) : List Label → List String × Bool
  | [] => ([], false)
  | label :: rest =>
    if removeFails label.name then ([label.name], true)
    else
      let r := dedupRemovalLoop removeFails rest
      (label.name :: r.1, r.2)

/-- Decidable equality on handler results, so that concrete runs can be
checked by `decide`. -/
instance {ε α : Type} [DecidableEq ε] [DecidableEq α] : DecidableEq (Except ε α) :=
  fun a b =>
    match a, b with
    | Except.ok x, Except.ok y =>
      if h : x = y then isTrue (by rw [h])
      else isFalse (fun hc => h (by injection hc))
    | Except.error x, Except.error y =>
      if h : x = y then isTrue (by rw [h])
      else isFalse (fun hc => h (by injection hc))
    | Except.ok _, Except.error _ => isFalse (fun hc => Except.noConfusion hc)
    | Except.error _, Except.ok _ => isFalse (fun hc => Except.noConfusion hc)

/-! Concrete fixtures used to evaluate the model on the spec's §8 scenario
data (`"Time: <1 Hour>"`, `"Priority: 1 (Normal)"`, `"Price: <n> USD"`). -/

/-- A concrete label-magnitude function for the fixtures: the number
embedded in the `"Price: <n> USD"` names, `0` elsewhere. -/
def valW : String → Nat := fun n =>
  if n == "Price: 1 USD" then 1
  else if n == "Price: 2 USD" then 2
  else if n == "Price: 3 USD" then 3
  else if n == "Price: 5 USD" then 5
  else 0

/-- Fixture time label. -/
def timeL : Label := Label.mk "Time: <1 Hour>"

/-- Fixture priority label. -/
def prioL : Label := Label.mk "Priority: 1 (Normal)"

/-- Fixture price labels. -/
def priceL1 : Label := Label.mk "Price: 1 USD"

/-- Fixture price label of value 2. -/
def priceL2 : Label := Label.mk "Price: 2 USD"

/-- Fixture price label of value 3. -/
def priceL3 : Label := Label.mk "Price: 3 USD"

/-- Fixture price label of value 5. -/
def priceL5 : Label := Label.mk "Price: 5 USD"

/-- Fixture configuration recognizing the two labels above. -/
def configW : AssistivePricingSettings :=
  { labels := { time := ["Time: <1 Hour>"], priority := ["Priority: 1 (Normal)"] }
    publicAccessControl := { setLabel := true } }

/-- A `"labeled"` event for `"Price: 1 USD"` made by a human. -/
def userPriceEvent : IssueEvent :=
  IssueEvent.mk "labeled" (some priceL1) (some (Actor.mk "User"))

/-- A `"labeled"` event for `"Price: 1 USD"` made by a bot (the automation). -/
def botPriceEvent : IssueEvent :=
  IssueEvent.mk "labeled" (some priceL1) (some (Actor.mk "Bot"))

/-- Base fixture context: an issue label event on a non-parent issue with a
recognized time and priority label, permission granted, empty repository
label list and event log, price formula constantly `1`. -/
def baseCtx : Context :=
  { isIssueLabelEvent := true
    payload := { issueLabels := some [timeL, prioL], issueBody := none, triggerLabel := none }
    config := configW
    hasPermission := true
    repoLabels := []
    issueEvents := []
    setPriceVal := fun _ _ => some 1
    labelValue := valW
    isParentIssue := fun _ => false
    parentIssueCalls := [] }

/-- Context for the C1 counterexample: duplicate price labels drifted onto
the issue, and the most recent price-labeled event was made by a human. -/
def ctxC1 : Context :=
  { baseCtx with
    payload := { baseCtx.payload with issueLabels := some [timeL, prioL, priceL1, priceL2] }
    issueEvents := [userPriceEvent] }

/-- Context for C2: the state produced by a first reconciliation run — the
target `"Price: 1 USD"` is the only price label and the most recent
price-labeled event's actor is the automation (a bot). -/
def ctxC2 : Context :=
  { baseCtx with
    payload := { baseCtx.payload with issueLabels := some [timeL, prioL, priceL1] }
    issueEvents := [botPriceEvent] }

/-- Context for the C3 counterexample: the target price label is already on
the issue but the event log is empty (e.g. the history fetch failed and was
degraded to `[]`). -/
def ctxC3 : Context :=
  { baseCtx with
    payload := { baseCtx.payload with issueLabels := some [timeL, prioL, priceL1] } }

/-- Context for C4: a human directly added `"Price: 5 USD"` (the trigger),
and the issue also carries `"Price: 1 USD"` (the spec's §8 scenario). -/
def ctxC4 : Context :=
  { baseCtx with
    payload := { baseCtx.payload with
      issueLabels := some [priceL1, priceL5]
      triggerLabel := some priceL5 } }

/-- Context for the C5 counterexample: no issue label name equals the
target `"Price: 1 USD"`, but one strictly contains it. -/
def ctxC5 : Context :=
  { baseCtx with
    payload := { baseCtx.payload with
      issueLabels := some [timeL, prioL, Label.mk "xPrice: 1 USDx"] } }

/-- Context for C6: no recognized priority label, price labels drifted on. -/
def ctxC6 : Context :=
  { baseCtx with
    payload := { baseCtx.payload with issueLabels := some [timeL, priceL1, priceL2] } }

/-- Context for C7: the price calculator cannot resolve a price. -/
def ctxC7 : Context :=
  { baseCtx with
    payload := { baseCtx.payload with issueLabels := some [timeL, prioL, priceL1] }
    setPriceVal := fun _ _ => none }

/-- Context for C10: a payload that is not an issue label event. -/
def ctxC10 : Context :=
  { baseCtx with isIssueLabelEvent := false }

/-- Failure oracle for the C8 dedup-loop analysis: removing
`"Price: 2 USD"` rejects, every other removal resolves. -/
def removeFailsW : String → Bool := fun n => n == "Price: 2 USD"

/-! Helper lemmas on the string-containment model. -/

theorem leadsWith_append (p m : List Char) : leadsWith p (p ++ m) = true := by
  induction p with
  | nil => rfl
  | cons a as ih => simp [leadsWith, ih]

theorem occursIn_of_leadsWith {p l : List Char} (h : leadsWith p l = true) :
    occursIn p l = true := by
  cases l with
  | nil =>
    cases p with
    | nil => rfl
    | cons a as => simp [leadsWith] at h
  | cons c rest => simp [occursIn, h]

theorem strIncludes_of_lead (p s : String) : strIncludes (p ++ s) p = true := by
  unfold strIncludes
  rw [String.data_append]
  exact occursIn_of_leadsWith (leadsWith_append _ _)

theorem strIncludes_self (s : String) : strIncludes s s = true := by
  have h := strIncludes_of_lead s ""
  simpa using h

theorem target_includes_price_colon (v : Nat) :
    strIncludes ("Price: " ++ toString v ++ " USD") "Price: " = true := by
  rw [String.append_assoc]
  exact strIncludes_of_lead _ _

theorem target_includes_price (v : Nat) :
    strIncludes ("Price: " ++ toString v ++ " USD") "Price" = true := by
  have h : ("Price: " ++ toString v ++ " USD" : String)
      = "Price" ++ (": " ++ toString v ++ " USD") := by
    rw [← String.append_assoc, ← String.append_assoc]
    rfl
  rw [h]
  exact strIncludes_of_lead _ _

theorem isPriceLabel_target (v : Nat) :
    isPriceLabel (Label.mk ("Price: " ++ toString v ++ " USD")) = true :=
  target_includes_price_colon v

theorem isEmpty_false_of_price (n : String) (h : strIncludes n "Price: " = true) :
    n.isEmpty = false := by
  cases hn : n.isEmpty with
  | false => rfl
  | true =>
    have hne : n = "" := (String.isEmpty_iff n).mp hn
    rw [hne] at h
    exact absurd h (by decide)

/-! Helper lemmas on the spec-modelled sort. -/

theorem sortLabelsByValue_perm (val : String → Nat) (L : List Label) :
    (sortLabelsByValue val L).Perm L :=
  List.perm_insertionSort _ _

theorem sortLabelsByValue_nil_iff (val : String → Nat) (L : List Label) :
    sortLabelsByValue val L = [] ↔ L = [] := by
  constructor
  · intro h
    have hp := sortLabelsByValue_perm val L
    rw [h] at hp
    exact (List.perm_nil.mp hp.symm)
  · intro h
    rw [h]
    rfl

theorem sortLabelsByValue_head_min (val : String → Nat) (L : List Label)
    (m : Label) (rest : List Label)
    (h : sortLabelsByValue val L = m :: rest) :
    ∀ l ∈ L, val m.name ≤ val l.name := by
  intro l hl
  haveI : IsTotal Label (fun a b => val a.name ≤ val b.name) :=
    ⟨fun a b => Nat.le_total _ _⟩
  haveI : IsTrans Label (fun a b => val a.name ≤ val b.name) :=
    ⟨fun a b c h1 h2 => Nat.le_trans h1 h2⟩
  have hs := List.sorted_insertionSort (fun a b : Label => val a.name ≤ val b.name) L
  rw [show List.insertionSort (fun a b : Label => val a.name ≤ val b.name) L
      = sortLabelsByValue val L from rfl, h] at hs
  have hmem : l ∈ sortLabelsByValue val L := by
    unfold sortLabelsByValue
    rw [List.mem_insertionSort]
    exact hl
  rw [h] at hmem
  rcases List.mem_cons.mp hmem with rfl | hmem'
  · exact Nat.le_refl _
  · exact List.rel_of_sorted_cons hs l hmem'

/-! Helper lemmas on the label-set effect of mutation calls. -/

theorem applyCalls_clear_add (L : List Label) (t : String)
    (ht : isPriceLabel (Label.mk t) = true) :
    applyCalls L (addPriceLabelToIssue t)
      = L.filter (fun l => !isPriceLabel l) ++ [Label.mk t] := by
  have hany : (L.filter (fun l => !isPriceLabel l)).any (fun l => l.name == t) = false := by
    rw [List.any_eq_false]
    intro l hl
    have hnp : (!isPriceLabel l) = true := (List.mem_filter.mp hl).2
    intro hb
    have hname : l.name = t := by simpa using hb
    have hip : isPriceLabel l = true := by
      unfold isPriceLabel
      rw [hname]
      exact ht
    rw [hip] at hnp
    exact absurd hnp (by decide)
  show applyCall (applyCall L MutationCall.clearAllPriceLabelsOnIssue)
      (MutationCall.addLabelToIssue t) = _
  unfold applyCall
  simp [hany]

theorem countPriceLabels_clear_add (L : List Label) (t : String)
    (ht : isPriceLabel (Label.mk t) = true) :
    countPriceLabels (applyCalls L (addPriceLabelToIssue t)) = 1 := by
  rw [applyCalls_clear_add L t ht]
  unfold countPriceLabels
  rw [List.filter_append, List.filter_filter]
  simp [ht]

theorem countPriceLabels_clear (L : List Label) :
    countPriceLabels (applyCalls L [MutationCall.clearAllPriceLabelsOnIssue]) = 0 := by
  show countPriceLabels (applyCall L MutationCall.clearAllPriceLabelsOnIssue) = 0
  unfold applyCall countPriceLabels
  rw [List.filter_filter]
  simp

theorem applyCalls_create_cons (L : List Label) (t : String) (calls : List MutationCall) :
    applyCalls L (MutationCall.createLabel t :: calls) = applyCalls L calls :=
  rfl

/-! Helper lemmas unfolding the handler along its guard conditions. -/

theorem run_eq_setPriceLabel (ctx : Context) (labels : List Label)
    (hEv : ctx.isIssueLabelEvent = true)
    (hL : ctx.payload.issueLabels = some labels)
    (hPar : isParentIssueGate ctx = false)
    (hPerm : ctx.hasPermission = true)
    (hTrig : triggerIsPrice ctx = false) :
    onLabelChangeSetPricing ctx = Except.ok (setPriceLabel ctx labels) := by
  unfold onLabelChangeSetPricing
  rw [hEv, hL]
  simp [hPar, hPerm, hTrig]

theorem run_eq_dedup (ctx : Context) (labels : List Label)
    (hEv : ctx.isIssueLabelEvent = true)
    (hL : ctx.payload.issueLabels = some labels)
    (hPar : isParentIssueGate ctx = false)
    (hPerm : ctx.hasPermission = true)
    (hTrig : triggerIsPrice ctx = true) :
    onLabelChangeSetPricing ctx =
      (match sortLabelsByValue ctx.labelValue
          (labels.filter (fun label => strIncludes label.name "Price: ")) with
      | [] => Except.ok []
      | smallestPriceLabel :: rest =>
        if smallestPriceLabel.name.isEmpty then Except.ok []
        else Except.ok (rest.map (fun label => MutationCall.removeLabel label.name))) := by
  unfold onLabelChangeSetPricing
  rw [hEv, hL]
  simp [hPar, hPerm, hTrig]

theorem setPriceLabel_clear_of_unrecognized (ctx : Context) (labels : List Label)
    (h : (getRecognizedLabels labels ctx.config).time = []
      ∨ (getRecognizedLabels labels ctx.config).priority = []) :
    setPriceLabel ctx labels = [MutationCall.clearAllPriceLabelsOnIssue] := by
  unfold setPriceLabel
  rcases h with h | h <;> simp [h]

theorem setPriceLabel_eq_handleTarget (ctx : Context) (labels : List Label)
    (t p : Label) (v : Nat)
    (hT : (getRecognizedLabels labels ctx.config).time ≠ [])
    (hP : (getRecognizedLabels labels ctx.config).priority ≠ [])
    (hmin : getMinLabels ctx.labelValue (getRecognizedLabels labels ctx.config)
      = MinLabels.mk (some t) (some p))
    (hv : ctx.setPriceVal t p = some v) :
    setPriceLabel ctx labels
      = handleTargetPriceLabel ctx ("Price: " ++ toString v ++ " USD")
          (labels.map (fun i => i.name)) := by
  unfold setPriceLabel
  dsimp only
  have h1 : ((getRecognizedLabels labels ctx.config).time.length == 0
      || (getRecognizedLabels labels ctx.config).priority.length == 0) = false := by
    simp [List.length_eq_zero, hT, hP]
  rw [h1]
  simp only [Bool.false_eq_true, if_false, hmin]
  unfold setPrice
  rw [hv]
  rfl

theorem setPriceLabel_clear_of_no_price (ctx : Context) (labels : List Label)
    (t p : Label)
    (hT : (getRecognizedLabels labels ctx.config).time ≠ [])
    (hP : (getRecognizedLabels labels ctx.config).priority ≠ [])
    (hmin : getMinLabels ctx.labelValue (getRecognizedLabels labels ctx.config)
      = MinLabels.mk (some t) (some p))
    (hv : ctx.setPriceVal t p = none) :
    setPriceLabel ctx labels = [MutationCall.clearAllPriceLabelsOnIssue] := by
  unfold setPriceLabel
  dsimp only
  have h1 : ((getRecognizedLabels labels ctx.config).time.length == 0
      || (getRecognizedLabels labels ctx.config).priority.length == 0) = false := by
    simp [List.length_eq_zero, hT, hP]
  rw [h1]
  simp only [Bool.false_eq_true, if_false, hmin]
  unfold setPrice
  rw [hv]
  rfl

/-- C6: for every invocation (issue label event, non-parent, permitted, not
a direct price-label trigger) whose labels contain no recognized time label
or no recognized priority label, reconciliation issues exactly one
clear-all-price-labels call — so every existing price label is removed and
no new label is added — and the invocation returns normally (`Except.ok`)
rather than throwing. -/
theorem c6_unrecognized_clears (ctx : Context) (labels : List Label)
    (hEv : ctx.isIssueLabelEvent = true)
    (hL : ctx.payload.issueLabels = some labels)
    (hPar : isParentIssueGate ctx = false)
    (hPerm : ctx.hasPermission = true)
    (hTrig : triggerIsPrice ctx = false)
    (h : (getRecognizedLabels labels ctx.config).time = []
      ∨ (getRecognizedLabels labels ctx.config).priority = []) :
    onLabelChangeSetPricing ctx = Except.ok [MutationCall.clearAllPriceLabelsOnIssue]
    ∧ countPriceLabels (applyCalls labels [MutationCall.clearAllPriceLabelsOnIssue]) = 0 := by
  constructor
  · rw [run_eq_setPriceLabel ctx labels hEv hL hPar hPerm hTrig,
      setPriceLabel_clear_of_unrecognized ctx labels h]
  · exact countPriceLabels_clear labels

/-- Witness for C6 at a concrete input: time label recognized, no priority
label, two drifted price labels. -/
theorem c6_witness :
    onLabelChangeSetPricing ctxC6 = Except.ok [MutationCall.clearAllPriceLabelsOnIssue]
    ∧ countPriceLabels
        (applyCalls [timeL, priceL1, priceL2] [MutationCall.clearAllPriceLabelsOnIssue]) = 0 :=
  c6_unrecognized_clears ctxC6 [timeL, priceL1, priceL2]
    (by decide) (by decide) (by decide) (by decide) (by decide) (Or.inr (by decide))

/-- C7: when both recognized buckets are non-empty but the price calculator
returns null for the selected minimum time and priority labels, the
invocation's only mutation call is clearing the price labels on the issue —
nothing is added — and no error is raised. -/
theorem c7_null_price_clears (ctx : Context) (labels : List Label) (t p : Label)
    (hEv : ctx.isIssueLabelEvent = true)
    (hL : ctx.payload.issueLabels = some labels)
    (hPar : isParentIssueGate ctx = false)
    (hPerm : ctx.hasPermission = true)
    (hTrig : triggerIsPrice ctx = false)
    (hT : (getRecognizedLabels labels ctx.config).time ≠ [])
    (hP : (getRecognizedLabels labels ctx.config).priority ≠ [])
    (hmin : getMinLabels ctx.labelValue (getRecognizedLabels labels ctx.config)
      = MinLabels.mk (some t) (some p))
    (hv : ctx.setPriceVal t p = none) :
    onLabelChangeSetPricing ctx = Except.ok [MutationCall.clearAllPriceLabelsOnIssue]
    ∧ countPriceLabels (applyCalls labels [MutationCall.clearAllPriceLabelsOnIssue]) = 0 := by
  constructor
  · rw [run_eq_setPriceLabel ctx labels hEv hL hPar hPerm hTrig,
      setPriceLabel_clear_of_no_price ctx labels t p hT hP hmin hv]
  · exact countPriceLabels_clear labels

/-- Witness for C7 at a concrete input: recognized labels present, price
calculator returns none, one stale price label on the issue. -/
theorem c7_witness :
    onLabelChangeSetPricing ctxC7 = Except.ok [MutationCall.clearAllPriceLabelsOnIssue]
    ∧ countPriceLabels
        (applyCalls [timeL, prioL, priceL1] [MutationCall.clearAllPriceLabelsOnIssue]) = 0 :=
  c7_null_price_clears ctxC7 [timeL, prioL, priceL1] timeL prioL
    (by decide) (by decide) (by decide) (by decide) (by decide)
    (by decide) (by decide) (by decide) (by decide)

/-- C9: whenever both recognized buckets are non-empty, `getMinLabels`
returns a defined time label and a defined priority label, so the
`"No label to calculate price"` early-return branch of `setPriceLabel` is
unreachable in that case. -/
theorem c9_min_labels_defined (val : String → Nat) (r : RecognizedLabels)
    (hT : r.time ≠ []) (hP : r.priority ≠ []) :
    ∃ t p, getMinLabels val r = MinLabels.mk (some t) (some p) := by
  have h1 : sortLabelsByValue val r.time ≠ [] :=
    fun h => hT ((sortLabelsByValue_nil_iff val r.time).mp h)
  have h2 : sortLabelsByValue val r.priority ≠ [] :=
    fun h => hP ((sortLabelsByValue_nil_iff val r.priority).mp h)
  obtain ⟨t, ts, ht⟩ := List.exists_cons_of_ne_nil h1
  obtain ⟨p, ps, hp⟩ := List.exists_cons_of_ne_nil h2
  refine ⟨t, p, ?_⟩
  unfold getMinLabels
  rw [ht, hp]
  rfl

/-- Witness for C9 at concrete non-empty buckets. -/
theorem c9_witness :
    ∃ t p, getMinLabels valW (RecognizedLabels.mk [timeL] [prioL])
      = MinLabels.mk (some t) (some p) :=
  c9_min_labels_defined valW (RecognizedLabels.mk [timeL] [prioL]) (by decide) (by decide)

/-- C10: for every invocation whose payload is not an issue label event,
`onLabelChangeSetPricing` returns normally with no mutation calls and no
thrown error, leaving the issue's label state entirely unchanged. -/
theorem c10_non_issue_event_noop (ctx : Context)
    (h : ctx.isIssueLabelEvent = false) :
    onLabelChangeSetPricing ctx = Except.ok [] := by
  unfold onLabelChangeSetPricing
  rw [h]
  rfl

/-- Witness for C10 at a concrete non-issue-event payload. -/
theorem c10_witness : onLabelChangeSetPricing ctxC10 = Except.ok [] :=
  c10_non_issue_event_noop ctxC10 (by decide)

/-- C4: for every invocation (issue label event, non-parent, permitted)
whose triggering label's name contains `"Price: "`, no price recomputation
is performed — the result is independent of the price formula — and the
issued calls are exactly one individual removal per price label other than
the first of the value-sorted price labels; the kept label is
smallest-valued among the issue's price labels, kept and removed labels
together are exactly the issue's price labels, and nothing is added. -/
theorem c4_price_trigger_dedup (ctx : Context) (labels : List Label)
    (hEv : ctx.isIssueLabelEvent = true)
    (hL : ctx.payload.issueLabels = some labels)
    (hPar : isParentIssueGate ctx = false)
    (hPerm : ctx.hasPermission = true)
    (hTrig : triggerIsPrice ctx = true) :
    onLabelChangeSetPricing ctx
      = Except.ok ((sortLabelsByValue ctx.labelValue
          (labels.filter (fun label => strIncludes label.name "Price: "))).tail.map
          (fun label => MutationCall.removeLabel label.name))
    ∧ (sortLabelsByValue ctx.labelValue
          (labels.filter (fun label => strIncludes label.name "Price: "))).Perm
        (labels.filter (fun label => strIncludes label.name "Price: "))
    ∧ (∀ m ∈ (sortLabelsByValue ctx.labelValue
          (labels.filter (fun label => strIncludes label.name "Price: "))).head?,
        ∀ l ∈ labels.filter (fun label => strIncludes label.name "Price: "),
          ctx.labelValue m.name ≤ ctx.labelValue l.name)
    ∧ (∀ f, onLabelChangeSetPricing { ctx with setPriceVal := f }
        = onLabelChangeSetPricing ctx) := by
  have hrun := run_eq_dedup ctx labels hEv hL hPar hPerm hTrig
  refine ⟨?_, sortLabelsByValue_perm _ _, ?_, ?_⟩
  · cases hs : sortLabelsByValue ctx.labelValue
        (labels.filter (fun label => strIncludes label.name "Price: ")) with
    | nil => rw [hs] at hrun; simpa [hs] using hrun
    | cons m rest =>
      rw [hs] at hrun
      dsimp only at hrun
      have hmem : m ∈ labels.filter (fun label => strIncludes label.name "Price: ") :=
        (sortLabelsByValue_perm ctx.labelValue _).mem_iff.mp (hs ▸ List.mem_cons_self m rest)
      have hpr : strIncludes m.name "Price: " = true := (List.mem_filter.mp hmem).2
      have hne : m.name.isEmpty = false := isEmpty_false_of_price m.name hpr
      rw [hne] at hrun
      simpa [hs] using hrun
  · intro m hm l hl
    cases hs : sortLabelsByValue ctx.labelValue
        (labels.filter (fun label => strIncludes label.name "Price: ")) with
    | nil => rw [hs] at hm; simp at hm
    | cons a rest =>
      rw [hs] at hm
      have hma : a = m := by simpa using hm
      exact hma ▸ sortLabelsByValue_head_min ctx.labelValue _ a rest hs l hl
  · intro f
    have hrun' := run_eq_dedup { ctx with setPriceVal := f } labels hEv hL hPar hPerm hTrig
    rw [hrun, hrun']

/-- Witness for C4 at the spec's §8 scenario: trigger `"Price: 5 USD"`,
issue carries `"Price: 1 USD"` and `"Price: 5 USD"`; only the larger label
is removed. -/
theorem c4_witness :
    onLabelChangeSetPricing ctxC4 = Except.ok [MutationCall.removeLabel "Price: 5 USD"] :=
  ((c4_price_trigger_dedup ctxC4 [priceL1, priceL5]
    (by decide) (by decide) (by decide) (by decide) (by decide)).1).trans (by decide)

/-- C5 counterexample: on `ctxC5` no issue label name equals the target
`"Price: 1 USD"` (one strictly contains it), yet the engine does not take
the create-and-add branch: it issues no calls at all, instead of the
create/clear/add sequence that exact-equality branching would dictate. -/
theorem c5_counterexample :
    ([timeL, prioL, Label.mk "xPrice: 1 USDx"].all
        (fun l => l.name != "Price: 1 USD")) = true
    ∧ onLabelChangeSetPricing ctxC5 = Except.ok []
    ∧ (Except.ok [] : Except String (List MutationCall))
      ≠ Except.ok [MutationCall.createLabel "Price: 1 USD",
          MutationCall.clearAllPriceLabelsOnIssue,
          MutationCall.addLabelToIssue "Price: 1 USD"] := by
  decide

/-- C5 amended: the branch decision of `handleTargetPriceLabel` is by
substring containment, not name equality: the target counts as already
present exactly when some issue label name contains `"Price"` and contains
the target as a substring; in the create-and-add branch the label is
created repo-wide exactly when no repository label name contains the
target, then the issue's price labels are cleared and the target added.
Exact equality is still sufficient for the existing-label branch. -/
theorem c5_containment_branching (ctx : Context) (targetPriceLabel : String)
    (labelNames : List String) :
    (labelNames.any (fun name =>
        strIncludes name "Price" && strIncludes name targetPriceLabel) = true →
      handleTargetPriceLabel ctx targetPriceLabel labelNames
        = handleExistingPriceLabel ctx targetPriceLabel)
    ∧ (labelNames.any (fun name =>
        strIncludes name "Price" && strIncludes name targetPriceLabel) = false →
      handleTargetPriceLabel ctx targetPriceLabel labelNames
        = (if ((ctx.repoLabels.filter
              (fun i => strIncludes i.name targetPriceLabel)).length == 0) then
            [MutationCall.createLabel targetPriceLabel]
          else []) ++ addPriceLabelToIssue targetPriceLabel)
    ∧ (targetPriceLabel ∈ labelNames → strIncludes targetPriceLabel "Price" = true →
      labelNames.any (fun name =>
        strIncludes name "Price" && strIncludes name targetPriceLabel) = true) := by
  refine ⟨?_, ?_, ?_⟩
  · intro h
    simp only [handleTargetPriceLabel, h, if_true]
  · intro h
    simp only [handleTargetPriceLabel, h, Bool.false_eq_true, if_false]
  · intro hmem hp
    rw [List.any_eq_true]
    exact ⟨targetPriceLabel, hmem, by simp [hp, strIncludes_self]⟩

/-- Witness for C5 at a concrete input where the issue label name equals
the target: the existing-label branch is taken. -/
theorem c5_witness :
    handleTargetPriceLabel baseCtx "Price: 1 USD" ["Price: 1 USD"]
      = handleExistingPriceLabel baseCtx "Price: 1 USD" :=
  (c5_containment_branching baseCtx "Price: 1 USD" ["Price: 1 USD"]).1 (by decide)

/-- C8 counterexample: with a failure oracle on which removing
`"Price: 2 USD"` rejects, the dedup loop over `["Price: 2 USD",
"Price: 3 USD"]` aborts with a thrown error after the first attempt: the
remaining removal is not attempted, contradicting the claim that every
removal is still attempted and nothing is thrown. -/
theorem c8_counterexample :
    dedupRemovalLoop removeFailsW [priceL2, priceL3] = (["Price: 2 USD"], true)
    ∧ ((["Price: 2 USD"], true) : List String × Bool)
      ≠ ([priceL2, priceL3].map (fun l => l.name), false) := by
  decide

/-- C8 amended: the dedup removal loop has no try/catch, so the first
failing removal call propagates as a thrown error and aborts the loop: the
attempted removals are exactly those before the failing one plus the
failing one itself, and the removals after it are never attempted. -/
theorem c8_removal_failure_aborts (removeFails : String → Bool)
    (pre post : List Label) (x : Label)
    (hpre : ∀ l ∈ pre, removeFails l.name = false)
    (hx : removeFails x.name = true) :
    dedupRemovalLoop removeFails (pre ++ x :: post)
      = (pre.map (fun l => l.name) ++ [x.name], true) := by
  induction pre with
  | nil => simp [dedupRemovalLoop, hx]
  | cons a as ih =>
    have ha : removeFails a.name = false := hpre a (List.mem_cons_self a as)
    have ih' := ih (fun l hl => hpre l (List.mem_cons_of_mem a hl))
    simp [dedupRemovalLoop, ha, ih']

/-- Witness for C8 amended at a concrete input: the removal of
`"Price: 2 USD"` fails after `"Price: 1 USD"` succeeded; `"Price: 3 USD"`
is never attempted. -/
theorem c8_witness :
    dedupRemovalLoop removeFailsW ([priceL1] ++ priceL2 :: [priceL3])
      = ([priceL1].map (fun l => l.name) ++ ["Price: 2 USD"], true) :=
  c8_removal_failure_aborts removeFailsW [priceL1] [priceL3] priceL2
    (by decide) (by decide)

/-- C3 counterexample: on `ctxC3` the target `"Price: 1 USD"` matches an
existing issue label and there is no price-labeled history at all, yet the
engine issues no calls — it does not replace (clear-then-add) as the claim
states for the no-history case. -/
theorem c3_counterexample :
    (priceLabeledEvents ctxC3).getLast? = none
    ∧ ([timeL, prioL, priceL1].map (fun i => i.name)).any (fun name =>
        strIncludes name "Price" && strIncludes name "Price: 1 USD") = true
    ∧ onLabelChangeSetPricing ctxC3 = Except.ok []
    ∧ (Except.ok [] : Except String (List MutationCall))
      ≠ Except.ok [MutationCall.clearAllPriceLabelsOnIssue,
          MutationCall.addLabelToIssue "Price: 1 USD"] := by
  decide

/-- C3 amended: when a target price is derivable and a matching price label
already exists on the issue, the engine inspects the labeled-event history
filtered to labels containing `"Price"`: if there is no such history it
logs an error and issues no mutation calls (skip, not replace); if the most
recent such event's actor is a human it issues no mutation calls; only if
the most recent actor exists and is not a human does it replace — clear all
price labels, then add the target. -/
theorem c3_existing_label_actor_cases (ctx : Context) (labels : List Label)
    (t p : Label) (v : Nat)
    (hEv : ctx.isIssueLabelEvent = true)
    (hL : ctx.payload.issueLabels = some labels)
    (hPar : isParentIssueGate ctx = false)
    (hPerm : ctx.hasPermission = true)
    (hTrig : triggerIsPrice ctx = false)
    (hT : (getRecognizedLabels labels ctx.config).time ≠ [])
    (hP : (getRecognizedLabels labels ctx.config).priority ≠ [])
    (hmin : getMinLabels ctx.labelValue (getRecognizedLabels labels ctx.config)
      = MinLabels.mk (some t) (some p))
    (hv : ctx.setPriceVal t p = some v)
    (hmatch : (labels.map (fun i => i.name)).any (fun name =>
        strIncludes name "Price"
          && strIncludes name ("Price: " ++ toString v ++ " USD")) = true) :
    ((priceLabeledEvents ctx).getLast? = none →
      onLabelChangeSetPricing ctx = Except.ok [])
    ∧ (∀ e, (priceLabeledEvents ctx).getLast? = some e → isUserEvent e = true →
      onLabelChangeSetPricing ctx = Except.ok [])
    ∧ (∀ e, (priceLabeledEvents ctx).getLast? = some e → isUserEvent e = false →
      onLabelChangeSetPricing ctx
        = Except.ok [MutationCall.clearAllPriceLabelsOnIssue,
            MutationCall.addLabelToIssue ("Price: " ++ toString v ++ " USD")]) := by
  have hrun : onLabelChangeSetPricing ctx
      = Except.ok (handleExistingPriceLabel ctx ("Price: " ++ toString v ++ " USD")) := by
    rw [run_eq_setPriceLabel ctx labels hEv hL hPar hPerm hTrig,
      setPriceLabel_eq_handleTarget ctx labels t p v hT hP hmin hv]
    simp only [handleTargetPriceLabel, hmatch, if_true]
  refine ⟨?_, ?_, ?_⟩
  · intro h
    rw [hrun]
    unfold handleExistingPriceLabel
    rw [h]
  · intro e he hu
    rw [hrun]
    unfold handleExistingPriceLabel
    rw [he]
    simp [hu]
  · intro e he hu
    rw [hrun]
    unfold handleExistingPriceLabel
    rw [he]
    simp [hu, addPriceLabelToIssue]

/-- Witness for C3 amended at a concrete input: matching label present,
most recent price-labeled event made by a bot, so the engine replaces. -/
theorem c3_witness :
    onLabelChangeSetPricing ctxC2
      = Except.ok [MutationCall.clearAllPriceLabelsOnIssue,
          MutationCall.addLabelToIssue ("Price: " ++ toString 1 ++ " USD")] :=
  (c3_existing_label_actor_cases ctxC2 [timeL, prioL, priceL1] timeL prioL 1
    (by decide) (by decide) (by decide) (by decide) (by decide)
    (by decide) (by decide) (by decide) (by decide) (by decide)).2.2
    botPriceEvent (by decide) (by decide)

/-- C1 counterexample: on `ctxC1` (non-parent issue, recognized time and
priority labels present, two drifted price labels, most recent
price-labeled event made by a human) reconciliation completes with no
mutation calls and two price labels remain — not exactly one. -/
theorem c1_counterexample :
    (getRecognizedLabels [timeL, prioL, priceL1, priceL2] ctxC1.config).time ≠ []
    ∧ (getRecognizedLabels [timeL, prioL, priceL1, priceL2] ctxC1.config).priority ≠ []
    ∧ onLabelChangeSetPricing ctxC1 = Except.ok []
    ∧ countPriceLabels (applyCalls [timeL, prioL, priceL1, priceL2] []) = 2
    ∧ (2 : Nat) ≠ 1 := by
  decide

/-- C1 amended: for every invocation on a non-parent issue (issue label
event, permitted, not a direct price trigger) whose labels contain a
recognized time and priority label, exactly one price label remains after
reconciliation, provided the price calculator yields a value and — in case
some label already matches the target — the most recent price-labeled event
exists and its actor is not a human; in the excluded skip cases the label
set is left unchanged, so pre-existing duplicate price labels persist. -/
theorem c1_single_price_label (ctx : Context) (labels : List Label)
    (t p : Label) (v : Nat) (calls : List MutationCall)
    (hEv : ctx.isIssueLabelEvent = true)
    (hL : ctx.payload.issueLabels = some labels)
    (hPar : isParentIssueGate ctx = false)
    (hPerm : ctx.hasPermission = true)
    (hTrig : triggerIsPrice ctx = false)
    (hT : (getRecognizedLabels labels ctx.config).time ≠ [])
    (hP : (getRecognizedLabels labels ctx.config).priority ≠ [])
    (hmin : getMinLabels ctx.labelValue (getRecognizedLabels labels ctx.config)
      = MinLabels.mk (some t) (some p))
    (hv : ctx.setPriceVal t p = some v)
    (hrun : onLabelChangeSetPricing ctx = Except.ok calls)
    (hnoskip : ((labels.map (fun i => i.name)).any (fun name =>
        strIncludes name "Price"
          && strIncludes name ("Price: " ++ toString v ++ " USD")) = true) →
      ∃ e, (priceLabeledEvents ctx).getLast? = some e ∧ isUserEvent e = false) :
    countPriceLabels (applyCalls labels calls) = 1 := by
  have hcalls : calls = handleTargetPriceLabel ctx ("Price: " ++ toString v ++ " USD")
      (labels.map (fun i => i.name)) := by
    have h1 := run_eq_setPriceLabel ctx labels hEv hL hPar hPerm hTrig
    rw [hrun] at h1
    have h2 := setPriceLabel_eq_handleTarget ctx labels t p v hT hP hmin hv
    injection h1 with h3
    exact h3.trans h2
  subst hcalls
  cases hm : (labels.map (fun i => i.name)).any (fun name =>
      strIncludes name "Price"
        && strIncludes name ("Price: " ++ toString v ++ " USD")) with
  | true =>
    obtain ⟨e, he, hu⟩ := hnoskip hm
    rw [show handleTargetPriceLabel ctx ("Price: " ++ toString v ++ " USD")
        (labels.map (fun i => i.name))
        = addPriceLabelToIssue ("Price: " ++ toString v ++ " USD") by
      simp only [handleTargetPriceLabel, hm, if_true]
      unfold handleExistingPriceLabel
      rw [he]
      simp [hu]]
    exact countPriceLabels_clear_add labels _ (isPriceLabel_target v)
  | false =>
    simp only [handleTargetPriceLabel, hm, Bool.false_eq_true, if_false]
    cases hr : ((ctx.repoLabels.filter (fun i =>
        strIncludes i.name ("Price: " ++ toString v ++ " USD"))).length == 0) with
    | true =>
      rw [if_pos rfl]
      simp only [List.cons_append, List.nil_append]
      rw [applyCalls_create_cons]
      exact countPriceLabels_clear_add labels _ (isPriceLabel_target v)
    | false =>
      rw [if_neg (by decide), List.nil_append]
      exact countPriceLabels_clear_add labels _ (isPriceLabel_target v)

/-- Witness for C1 amended at a concrete input: no matching label on the
issue, so the engine creates, clears and adds; exactly one price label
remains. -/
theorem c1_witness :
    countPriceLabels (applyCalls [timeL, prioL]
      [MutationCall.createLabel "Price: 1 USD",
       MutationCall.clearAllPriceLabelsOnIssue,
       MutationCall.addLabelToIssue "Price: 1 USD"]) = 1 :=
  c1_single_price_label baseCtx [timeL, prioL] timeL prioL 1
    [MutationCall.createLabel "Price: 1 USD",
     MutationCall.clearAllPriceLabelsOnIssue,
     MutationCall.addLabelToIssue "Price: 1 USD"]
    (by decide) (by decide) (by decide) (by decide) (by decide)
    (by decide) (by decide) (by decide) (by decide) (by decide)
    (fun h => absurd h (by decide))

/-- C2 counterexample: `ctxC2` is the state a first reconciliation run
produces — the target `"Price: 1 USD"` is the only price label and the most
recent price-labeled event's actor is a bot — yet the second run issues a
clear-all call and a re-add, not zero mutation calls. -/
theorem c2_counterexample :
    (priceLabeledEvents ctxC2).getLast? = some botPriceEvent
    ∧ isUserEvent botPriceEvent = false
    ∧ onLabelChangeSetPricing ctxC2
      = Except.ok [MutationCall.clearAllPriceLabelsOnIssue,
          MutationCall.addLabelToIssue "Price: 1 USD"]
    ∧ (Except.ok [MutationCall.clearAllPriceLabelsOnIssue,
        MutationCall.addLabelToIssue "Price: 1 USD"] : Except String (List MutationCall))
      ≠ Except.ok [] := by
  decide

/-- C2 amended: rerunning reconciliation on the state produced by a first
run (target price label present, most recent price-labeled event by the
automation) issues exactly two further mutation calls — a clear-all and a
re-add of the same target — rather than none; these calls leave the issue's
label set unchanged, so the engine is idempotent at the label-set level but
not at the mutation-call level. -/
theorem c2_second_run_replaces (ctx : Context) (P : List Label)
    (t p : Label) (v : Nat) (e : IssueEvent)
    (hEv : ctx.isIssueLabelEvent = true)
    (hL : ctx.payload.issueLabels
      = some (P ++ [Label.mk ("Price: " ++ toString v ++ " USD")]))
    (hPar : isParentIssueGate ctx = false)
    (hPerm : ctx.hasPermission = true)
    (hTrig : triggerIsPrice ctx = false)
    (hPnp : ∀ l ∈ P, isPriceLabel l = false)
    (hT : (getRecognizedLabels (P ++ [Label.mk ("Price: " ++ toString v ++ " USD")])
        ctx.config).time ≠ [])
    (hPr : (getRecognizedLabels (P ++ [Label.mk ("Price: " ++ toString v ++ " USD")])
        ctx.config).priority ≠ [])
    (hmin : getMinLabels ctx.labelValue
        (getRecognizedLabels (P ++ [Label.mk ("Price: " ++ toString v ++ " USD")]) ctx.config)
      = MinLabels.mk (some t) (some p))
    (hv : ctx.setPriceVal t p = some v)
    (hlast : (priceLabeledEvents ctx).getLast? = some e)
    (huser : isUserEvent e = false) :
    onLabelChangeSetPricing ctx
      = Except.ok [MutationCall.clearAllPriceLabelsOnIssue,
          MutationCall.addLabelToIssue ("Price: " ++ toString v ++ " USD")]
    ∧ applyCalls (P ++ [Label.mk ("Price: " ++ toString v ++ " USD")])
        [MutationCall.clearAllPriceLabelsOnIssue,
         MutationCall.addLabelToIssue ("Price: " ++ toString v ++ " USD")]
      = P ++ [Label.mk ("Price: " ++ toString v ++ " USD")] := by
  constructor
  · rw [run_eq_setPriceLabel ctx _ hEv hL hPar hPerm hTrig,
      setPriceLabel_eq_handleTarget ctx _ t p v hT hPr hmin hv]
    have hmatch : ((P ++ [Label.mk ("Price: " ++ toString v ++ " USD")]).map
        (fun i => i.name)).any (fun name =>
        strIncludes name "Price"
          && strIncludes name ("Price: " ++ toString v ++ " USD")) = true := by
      rw [List.any_eq_true]
      refine ⟨"Price: " ++ toString v ++ " USD", ?_, ?_⟩
      · rw [List.map_append]
        exact List.mem_append_right _ (by simp)
      · simp [target_includes_price v, strIncludes_self]
    simp only [handleTargetPriceLabel, hmatch, if_true]
    unfold handleExistingPriceLabel
    rw [hlast]
    simp [huser, addPriceLabelToIssue]
  · rw [show [MutationCall.clearAllPriceLabelsOnIssue,
        MutationCall.addLabelToIssue ("Price: " ++ toString v ++ " USD")]
      = addPriceLabelToIssue ("Price: " ++ toString v ++ " USD") from rfl]
    rw [applyCalls_clear_add _ _ (isPriceLabel_target v)]
    rw [List.filter_append]
    have h1 : P.filter (fun l => !isPriceLabel l) = P := by
      rw [List.filter_eq_self]
      intro a ha
      rw [hPnp a ha]
      rfl
    have h2 : ([Label.mk ("Price: " ++ toString v ++ " USD")].filter
        (fun l => !isPriceLabel l)) = [] := by
      simp [isPriceLabel_target v]
    rw [h1, h2, List.append_nil]

/-- Witness for C2 amended at a concrete input: the second run on
`ctxC2` issues clear and re-add, and the label set is a fixed point of
those calls. -/
theorem c2_witness :
    onLabelChangeSetPricing ctxC2
      = Except.ok [MutationCall.clearAllPriceLabelsOnIssue,
          MutationCall.addLabelToIssue ("Price: " ++ toString 1 ++ " USD")]
    ∧ applyCalls ([timeL, prioL] ++ [Label.mk ("Price: " ++ toString 1 ++ " USD")])
        [MutationCall.clearAllPriceLabelsOnIssue,
         MutationCall.addLabelToIssue ("Price: " ++ toString 1 ++ " USD")]
      = [timeL, prioL] ++ [Label.mk ("Price: " ++ toString 1 ++ " USD")] :=
  c2_second_run_replaces ctxC2 [timeL, prioL] timeL prioL 1 botPriceEvent
    (by decide) (by decide) (by decide) (by decide) (by decide)
    (by decide) (by decide) (by decide) (by decide) (by decide)
    (by decide) (by decide)

end AssistivePricing
